import Mathlib

/-!
Verification of the buyer-message sanitizing module
(src/services/buyer_message.py): the line filter sanitize_buyer_tip
and the contact-block builder build_agent_contacts_block.

The embedding works on List Char (the character sequence of a Python
str).  The source file stores its non-ASCII literals in a corrupted
form: the UTF-8 bytes of the intended emoji / Chinese characters were
decoded as cp1254 (bytes with no cp1254 mapping were dropped) and
re-encoded, so the pattern catalog literally contains characters such
as U+00E5 U+00AE U+00A2 U+00E6 U+0153 where the intended text was
U+5BA2 U+670D.  The embedding reproduces the file as it is, character
for character, writing those characters with explicit escapes.

Regex semantics.  Every pattern in the catalog is anchored as
a whole-line pattern inside one alternation compiled with
re.MULTILINE and re.IGNORECASE and applied by re.sub with an empty
replacement.  The removal pass is modelled per line: the text is
split on the newline character, a line is emptied when some
alternative matches it in full, and the lines are joined back.  This
agrees with re.sub except in one configuration: the whitespace class
of the patterns also matches the newline itself, so a real match can
span a line break when a line consists of an emoji-set character (or
an opening bold tag, or the first word of a two-word keyword) whose
following whitespace run crosses the newline; the per-line model
keeps such texts unchanged while the code removes the whole span.
Every concrete input evaluated below is free of that configuration,
and the universal theorems below (blank-line collapse, trim,
deletion-only) hold for any extent of the removal pass, so no result
proved here depends on the dropped case.  Inside one line each
pattern is a sequence of literals, one-character sets, a whitespace
star or plus followed by a non-whitespace character (so the greedy
run is forced to be maximal), and a final dot-plus which within a
line just means a non-empty remainder (for the bold variants: a
remainder of length at least five ending in the closing bold tag).
Case-insensitive matching folds both sides with caseFold, which
reproduces the simple lowercase mapping on the character ranges the
catalog uses together with the extra equivalence classes of the
Python regex engine that reach a catalog letter (dotless i, capital
I with dot above, long s, the Kelvin sign, the Angstrom sign).
-/

/-- Case folding for the characters the pattern catalog can reach:
ASCII letters, Latin-1 capitals (except the multiplication sign), the
four Latin-Extended-A capitals whose lowercase forms occur in the
corrupted literals, and the characters the Python regex engine folds
onto a catalog letter beyond plain lowercasing: dotless i (U+0131)
and capital I with dot above (U+0130) fold to i, long s (U+017F)
folds to s, the Kelvin sign (U+212A) folds to k, and the Angstrom
sign (U+212B) folds to the a-ring letter U+00E5.  All other
characters fold to themselves. -/
def caseFold (c : Char) : Char :=
  if 'A' ≤ c ∧ c ≤ 'Z' then Char.ofNat (c.toNat + 32)
  else if Char.ofNat 0xC0 ≤ c ∧ c ≤ Char.ofNat 0xDE ∧ c ≠ Char.ofNat 0xD7 then
    Char.ofNat (c.toNat + 32)
  else if c = Char.ofNat 0x152 then Char.ofNat 0x153
  else if c = Char.ofNat 0x160 then Char.ofNat 0x161
  else if c = Char.ofNat 0x11E then Char.ofNat 0x11F
  else if c = Char.ofNat 0x178 then Char.ofNat 0xFF
  else if c = Char.ofNat 0x130 then 'i'
  else if c = Char.ofNat 0x131 then 'i'
  else if c = Char.ofNat 0x17F then 's'
  else if c = Char.ofNat 0x212A then 'k'
  else if c = Char.ofNat 0x212B then Char.ofNat 0xE5
  else c

/-- The whitespace characters of the Python regex class backslash-s and
of str.strip (identical sets for the characters that can occur here). -/
def isPySpace (c : Char) : Bool :=
  c = '\t' ∨ c = '\n' ∨ c = Char.ofNat 0x0B ∨ c = Char.ofNat 0x0C ∨
  c = '\r' ∨ c = Char.ofNat 0x1C ∨ c = Char.ofNat 0x1D ∨
  c = Char.ofNat 0x1E ∨ c = Char.ofNat 0x1F ∨ c = ' ' ∨
  c = Char.ofNat 0x85 ∨ c = Char.ofNat 0xA0 ∨ c = Char.ofNat 0x1680 ∨
  (Char.ofNat 0x2000 ≤ c ∧ c ≤ Char.ofNat 0x200A) ∨
  c = Char.ofNat 0x2028 ∨ c = Char.ofNat 0x2029 ∨
  c = Char.ofNat 0x202F ∨ c = Char.ofNat 0x205F ∨ c = Char.ofNat 0x3000

/-- Match one character against a regex one-character set,
case-insensitively; returns the rest of the line. -/
def mClass (cls : List Char) (l : List Char) : Option (List Char) :=
  match l with
  | [] => none
  | c :: r => if (cls.map caseFold).contains (caseFold c) then some r else none

/-- Match a literal, case-insensitively; returns the rest of the line. -/
def mLit : List Char → List Char → Option (List Char)
  | [], l => some l
  | _ :: _, [] => none
  | a :: as, c :: r => if caseFold c = caseFold a then mLit as r else none

/-- Match the regex whitespace-plus followed (in every catalog pattern)
by a non-whitespace character, so the greedy run is exactly the maximal
whitespace run and must be non-empty. -/
def mSpaces1 (l : List Char) : Option (List Char) :=
  match l with
  | [] => none
  | c :: r => if isPySpace c then some (r.dropWhile isPySpace) else none

/-- Match a keyword given as words separated by regex whitespace-plus
(for example the two words of the Official Channel keyword). -/
def mWords : List (List Char) → List Char → Option (List Char)
  | [], l => some l
  | [w], l => mLit w l
  | w :: ws, l =>
    match mLit w l with
    | none => none
    | some r =>
      match mSpaces1 r with
      | none => none
      | some r2 => mWords ws r2

/-- The one-character set of the colon in every pattern: the three
characters of the corrupted full-width colon, plus the ASCII colon. -/
def colonCls : List Char := [Char.ofNat 0xEF, Char.ofNat 0xBC, Char.ofNat 0x161, ':']

/-- Corrupted form of the phone/headset emoji set. -/
def phoneCls : List Char :=
  [Char.ofNat 0xE2, Char.ofNat 0x2DC, Char.ofNat 0xEF, Char.ofNat 0xB8,
   Char.ofNat 0x11F, Char.ofNat 0x178, Char.ofNat 0x201C]

/-- Corrupted form of the megaphone emoji set. -/
def megaCls : List Char :=
  [Char.ofNat 0x11F, Char.ofNat 0x178, Char.ofNat 0x201C, Char.ofNat 0xA3,
   Char.ofNat 0x11F, Char.ofNat 0x178, Char.ofNat 0x201C, Char.ofNat 0xA2]

/-- Corrupted form of the bell/speech-bubble emoji set. -/
def bellCls : List Char :=
  [Char.ofNat 0x11F, Char.ofNat 0x178, Char.ofNat 0x201D, Char.ofNat 0x201D,
   Char.ofNat 0x11F, Char.ofNat 0x178, Char.ofNat 0x2019, Char.ofNat 0xAC]

/-- Corrupted form of the book emoji set. -/
def bookCls : List Char :=
  [Char.ofNat 0x11F, Char.ofNat 0x178, Char.ofNat 0x201C, Char.ofNat 0x2013,
   Char.ofNat 0x11F, Char.ofNat 0x178, Char.ofNat 0x201C, Char.ofNat 0x161]

/-- Corrupted form of the separator-line character set. -/
def sepCls : List Char :=
  [Char.ofNat 0xE2, Char.ofNat 0x2013, '-', Char.ofNat 0xE2,
   Char.ofNat 0x201D, Char.ofNat 0x20AC]

/-- Corrupted form of the customer-service keyword. -/
def kwCS : List Char :=
  [Char.ofNat 0xE5, Char.ofNat 0xAE, Char.ofNat 0xA2, Char.ofNat 0xE6, Char.ofNat 0x153]

/-- Corrupted form of the channel keyword. -/
def kwChanZh : List Char :=
  [Char.ofNat 0xE9, Char.ofNat 0xA2, Char.ofNat 0x2018, Char.ofNat 0xE9, Char.ofNat 0x201C]

/-- Corrupted form of the official-channel keyword. -/
def kwOffChanZh : List Char :=
  [Char.ofNat 0xE5, Char.ofNat 0xAE, Char.ofNat 0x2DC, Char.ofNat 0xE6,
   Char.ofNat 0x2013, Char.ofNat 0xB9, Char.ofNat 0xE9, Char.ofNat 0xA2,
   Char.ofNat 0x2018, Char.ofNat 0xE9, Char.ofNat 0x201C]

/-- Corrupted form of the restock-group keyword. -/
def kwRestockZh : List Char :=
  [Char.ofNat 0xE8, Char.ofNat 0xA1, Char.ofNat 0xA5, Char.ofNat 0xE8,
   Char.ofNat 0xB4, Char.ofNat 0xA7, Char.ofNat 0xE9, Char.ofNat 0x20AC,
   Char.ofNat 0x161, Char.ofNat 0xE7, Char.ofNat 0x178, Char.ofNat 0xA5,
   Char.ofNat 0xE7, Char.ofNat 0xBE, Char.ofNat 0xA4]

/-- Corrupted form of the tutorial keyword. -/
def kwTutZh : List Char :=
  [Char.ofNat 0xE6, Char.ofNat 0x2022, Char.ofNat 0x2122, Char.ofNat 0xE7,
   Char.ofNat 0xA8, Char.ofNat 0x2039]

/-- Emoji-prefixed pattern: set, whitespace-star, keyword, colon set,
then a non-empty remainder up to the end of the line. -/
def pEmoji (cls : List Char) (ws : List (List Char)) (l : List Char) : Bool :=
  match mClass cls l with
  | none => false
  | some r =>
    match mWords ws (r.dropWhile isPySpace) with
    | none => false
    | some r2 =>
      match mClass colonCls r2 with
      | none => false
      | some r3 => !r3.isEmpty

/-- Unprefixed fallback pattern: keyword, colon set, non-empty remainder. -/
def pPlain (ws : List (List Char)) (l : List Char) : Bool :=
  match mWords ws l with
  | none => false
  | some r =>
    match mClass colonCls r with
    | none => false
    | some r2 => !r2.isEmpty

/-- Bold pattern: opening bold tag, whitespace-star, emoji set,
whitespace-star, keyword, colon set, then a dot-plus followed by the
closing bold tag at the end of the line, which within one line means a
remainder of length at least five whose last four characters are the
closing tag (case-insensitively). -/
def pBold (cls : List Char) (ws : List (List Char)) (l : List Char) : Bool :=
  match mLit (("<b>").data) l with
  | none => false
  | some r0 =>
    match mClass cls (r0.dropWhile isPySpace) with
    | none => false
    | some r =>
      match mWords ws (r.dropWhile isPySpace) with
      | none => false
      | some r2 =>
        match mClass colonCls r2 with
        | none => false
        | some r3 =>
          decide (5 ≤ r3.length) &&
          decide ((r3.drop (r3.length - 4)).map caseFold = (("</b>").data).map caseFold)

/-- Separator-line pattern: 8 or more characters, all from the
separator set. -/
def pSep (l : List Char) : Bool :=
  decide (8 ≤ l.length) && l.all (fun c => (sepCls.map caseFold).contains (caseFold c))

/-- One line matches the combined catalog iff some alternative matches
it in full; the alternatives are listed in source order. -/
def lineMatches (l : List Char) : Bool :=
  pEmoji phoneCls [kwCS] l ||
  pEmoji megaCls [kwChanZh] l ||
  pEmoji megaCls [kwOffChanZh] l ||
  pEmoji bellCls [kwRestockZh] l ||
  pEmoji bookCls [kwTutZh] l ||
  pEmoji phoneCls [("Support").data] l ||
  pEmoji megaCls [("Channel").data] l ||
  pEmoji megaCls [("Official").data, ("Channel").data] l ||
  pEmoji bellCls [("Restock").data, ("Group").data] l ||
  pEmoji bookCls [("Tutorial").data] l ||
  pBold phoneCls [kwCS] l ||
  pBold megaCls [kwChanZh] l ||
  pBold megaCls [kwOffChanZh] l ||
  pBold bellCls [kwRestockZh] l ||
  pBold phoneCls [("Support").data] l ||
  pBold megaCls [("Channel").data] l ||
  pBold megaCls [("Official").data, ("Channel").data] l ||
  pPlain [kwCS] l ||
  pPlain [kwChanZh] l ||
  pPlain [kwOffChanZh] l ||
  pPlain [kwRestockZh] l ||
  pPlain [("Support").data] l ||
  pPlain [("Channel").data] l ||
  pPlain [("Official").data, ("Channel").data] l ||
  pPlain [("Restock").data, ("Group").data] l ||
  pSep l

/-- Split a character list into its lines (maximal newline-free runs). -/
def splitLines : List Char → List (List Char)
  | [] => [[]]
  | c :: rest =>
    if c = '\n' then [] :: splitLines rest
    else
      match splitLines rest with
      | [] => [[c]]
      | h :: t => (c :: h) :: t

/-- Join lines back with single newlines. -/
def joinLines : List (List Char) → List Char
  | [] => []
  | [l] => l
  | l :: ls => l ++ '\n' :: joinLines ls

/-- The substitution pass of sanitize_buyer_tip: every line matching
the catalog is replaced by the empty line; newlines survive.  A match
spanning a line break through a whitespace run (possible in the code
because the whitespace class also matches the newline) is outside
this per-line model; the header note lists what does and does not
rest on it. -/
def removeMatchedLines (l : List Char) : List Char :=
  joinLines ((splitLines l).map fun ln => if lineMatches ln then [] else ln)

/-- What the blank-line-collapse pass emits for a pending run of n
newlines: runs of three or more become exactly two. -/
def emitNL (n : Nat) : List Char :=
  if 3 ≤ n then ['\n', '\n'] else List.replicate n '\n'

/-- Scanner for the collapse pass, carrying the length of the pending
newline run. -/
def collapseGo : Nat → List Char → List Char
  | n, [] => emitNL n
  | n, c :: cs => if c = '\n' then collapseGo (n + 1) cs else emitNL n ++ c :: collapseGo 0 cs

/-- The second pass of sanitize_buyer_tip: every maximal run of three
or more newlines is replaced by two newlines. -/
def collapseNewlines (l : List Char) : List Char :=
  collapseGo 0 l

/-- Python str.strip: drop whitespace from both ends. -/
def pyStrip (l : List Char) : List Char :=
  ((l.dropWhile isPySpace).reverse.dropWhile isPySpace).reverse

/-- sanitize_buyer_tip from src/services/buyer_message.py: empty input
is returned unchanged; otherwise remove catalog lines, collapse blank
runs, and strip both ends. -/
def sanitize_buyer_tip (text : String) : String :=
  if text = "" then text
  else String.mk (pyStrip (collapseNewlines (removeMatchedLines text.data)))

/-- The agent settings mapping: the four recognized keys, each either
absent or bound to a string.  A Python dict lookup with get is
order-independent, so a structure with one optional field per key is a
faithful model of the mapping. -/
structure AgentSettings where
  customer_service : Option String
  official_channel : Option String
  restock_group : Option String
  tutorial_link : Option String

/-- The join of the collected parts with single newlines. -/
def joinParts : List String → String
  | [] => ""
  | [p] => p
  | p :: ps => p ++ "\n" ++ joinParts ps

/-- build_agent_contacts_block from src/services/buyer_message.py.
Each field contributes one part when its value is present and
non-empty (Python truthiness of an optional string); the parts are
collected in the fixed source order and joined with newlines.  The
label literals and the colon are the corrupted characters the source
file actually contains. -/
def build_agent_contacts_block (agent_settings : AgentSettings) (lang : String) : String :=
  let msg_parts : List String :=
    (match agent_settings.customer_service with
     | some customer_service =>
       if customer_service ≠ "" then
         ["<b>" ++ (if lang = "zh" then ("å®¢æœ") else ("Support")) ++
          "ï¼š</b>" ++ customer_service]
       else []
     | none => []) ++
    (match agent_settings.official_channel with
     | some official_channel =>
       if official_channel ≠ "" then
         ["<b>" ++ (if lang = "zh" then
            ("å®˜æ–¹é¢‘é“")
          else ("Official Channel")) ++ "ï¼š</b>" ++ official_channel]
       else []
     | none => []) ++
    (match agent_settings.restock_group with
     | some restock_group =>
       if restock_group ≠ "" then
         ["<b>" ++ (if lang = "zh" then
            ("è¡¥è´§é€šçŸ¥ç¾¤")
          else ("Restock Group")) ++ "ï¼š</b>" ++ restock_group]
       else []
     | none => []) ++
    (match agent_settings.tutorial_link with
     | some tutorial_link =>
       if tutorial_link ≠ "" then
         ["<b>" ++ (if lang = "zh" then ("æ•™ç¨‹") else ("Tutorial")) ++
          "ï¼š</b>" ++ tutorial_link]
       else []
     | none => [])
  if msg_parts = [] then ("") else joinParts msg_parts

/-- Does the list start with three newlines? -/
def startNNN (l : List Char) : Bool :=
  decide (l.take 3 = ['\n', '\n', '\n'])

/-- Does the list contain three consecutive newlines anywhere? -/
def hasNNN : List Char → Bool
  | [] => false
  | c :: cs => startNNN (c :: cs) || hasNNN cs

theorem hasNNN_cons (c : Char) (cs : List Char) :
    hasNNN (c :: cs) = (startNNN (c :: cs) || hasNNN cs) := rfl

theorem startNNN_cons_ne {c : Char} (cs : List Char) (h : c ≠ '\n') :
    startNNN (c :: cs) = false := by
  simp [startNNN, List.take_succ_cons, h]

theorem hasNNN_cons_ne {c : Char} (cs : List Char) (h : c ≠ '\n') :
    hasNNN (c :: cs) = hasNNN cs := by
  rw [hasNNN_cons, startNNN_cons_ne cs h, Bool.false_or]

theorem hasNNN_tail_false {c : Char} {cs : List Char} (h : hasNNN (c :: cs) = false) :
    hasNNN cs = false := by
  rw [hasNNN_cons, Bool.or_eq_false_iff] at h
  exact h.2

theorem startNNN_head_false {c : Char} {cs : List Char} (h : hasNNN (c :: cs) = false) :
    startNNN (c :: cs) = false := by
  rw [hasNNN_cons, Bool.or_eq_false_iff] at h
  exact h.1

theorem hasNNN_cons_true {cs : List Char} (c : Char) (h : hasNNN cs = true) :
    hasNNN (c :: cs) = true := by
  rw [hasNNN_cons, h, Bool.or_true]

theorem hasNNN_of_startNNN {l : List Char} (h : startNNN l = true) : hasNNN l = true := by
  cases l with
  | nil => simp [startNNN] at h
  | cons c cs => rw [hasNNN_cons, h, Bool.true_or]

theorem hasNNN_iff (l : List Char) :
    hasNNN l = true ↔ ∃ a b, l = a ++ '\n' :: '\n' :: '\n' :: b := by
  constructor
  · intro h
    induction l with
    | nil => simp [hasNNN] at h
    | cons c cs ih =>
      rw [hasNNN_cons, Bool.or_eq_true] at h
      rcases h with h | h
      · refine ⟨[], (c :: cs).drop 3, ?_⟩
        have h3 : (c :: cs).take 3 = ['\n', '\n', '\n'] := of_decide_eq_true h
        rw [List.nil_append]
        conv_lhs => rw [← List.take_append_drop 3 (c :: cs)]
        rw [h3]
        rfl
      · obtain ⟨a, b, hab⟩ := ih h
        exact ⟨c :: a, b, by rw [hab, List.cons_append]⟩
  · rintro ⟨a, b, rfl⟩
    induction a with
    | nil =>
      apply hasNNN_of_startNNN
      simp [startNNN, List.take_succ_cons]
    | cons x a ih =>
      rw [List.cons_append]
      exact hasNNN_cons_true x ih

theorem hasNNN_reverse_true {l : List Char} (h : hasNNN l = true) :
    hasNNN l.reverse = true := by
  obtain ⟨a, b, rfl⟩ := (hasNNN_iff l).1 h
  rw [hasNNN_iff]
  refine ⟨b.reverse, a.reverse, ?_⟩
  simp [List.reverse_append]

theorem hasNNN_reverse_false {l : List Char} (h : hasNNN l = false) :
    hasNNN l.reverse = false := by
  cases hr : hasNNN l.reverse with
  | false => rfl
  | true =>
    have := hasNNN_reverse_true hr
    rw [List.reverse_reverse, h] at this
    cases this

theorem hasNNN_dropWhile_false {p : Char → Bool} {l : List Char} (h : hasNNN l = false) :
    hasNNN (l.dropWhile p) = false := by
  induction l with
  | nil => exact h
  | cons c cs ih =>
    cases hp : p c with
    | true =>
      rw [List.dropWhile_cons_of_pos hp]
      exact ih (hasNNN_tail_false h)
    | false =>
      rw [List.dropWhile_cons_of_neg (by simp [hp])]
      exact h

theorem hasNNN_pyStrip_false {l : List Char} (h : hasNNN l = false) :
    hasNNN (pyStrip l) = false :=
  hasNNN_reverse_false (hasNNN_dropWhile_false (hasNNN_reverse_false (hasNNN_dropWhile_false h)))

theorem hasNNN_emitNL (n : Nat) : hasNNN (emitNL n) = false := by
  unfold emitNL
  split
  · decide
  · rename_i hn
    have h2 : n = 0 ∨ n = 1 ∨ n = 2 := by omega
    rcases h2 with rfl | rfl | rfl <;> decide

theorem hasNNN_append_sep {a b : List Char} {c : Char} (hc : c ≠ '\n')
    (ha : hasNNN a = false) (hb : hasNNN b = false) : hasNNN (a ++ c :: b) = false := by
  induction a with
  | nil =>
    rw [List.nil_append, hasNNN_cons_ne b hc]
    exact hb
  | cons x a ih =>
    have ha2 : hasNNN a = false := hasNNN_tail_false ha
    rw [List.cons_append, hasNNN_cons, Bool.or_eq_false_iff]
    refine ⟨?_, ih ha2⟩
    match a with
    | [] => simp [startNNN, List.take_succ_cons, hc]
    | [y] => simp [startNNN, List.take_succ_cons, hc]
    | y :: z :: t =>
      have hs : startNNN (x :: y :: z :: t) = false := startNNN_head_false ha
      simp only [startNNN, List.take_succ_cons, List.take_zero] at hs ⊢
      simpa using hs

theorem collapseGo_hasNNN (l : List Char) : ∀ n, hasNNN (collapseGo n l) = false := by
  induction l with
  | nil => intro n; exact hasNNN_emitNL n
  | cons c cs ih =>
    intro n
    by_cases hc : c = '\n'
    · rw [collapseGo, if_pos hc]
      exact ih (n + 1)
    · rw [collapseGo, if_neg hc]
      exact hasNNN_append_sep hc (hasNNN_emitNL n) (ih 0)

theorem splitLines_ne_nil (l : List Char) : splitLines l ≠ [] := by
  cases l with
  | nil => simp [splitLines]
  | cons c rest =>
    rw [splitLines]
    split
    · simp
    · split <;> simp

theorem joinLines_cons_cons (a b : List Char) (t : List (List Char)) :
    joinLines (a :: b :: t) = a ++ '\n' :: joinLines (b :: t) := rfl

theorem joinLines_splitLines (l : List Char) : joinLines (splitLines l) = l := by
  induction l with
  | nil => rfl
  | cons c rest ih =>
    obtain ⟨h0, t0, hS⟩ : ∃ h0 t0, splitLines rest = h0 :: t0 := by
      cases hS : splitLines rest with
      | nil => exact absurd hS (splitLines_ne_nil rest)
      | cons h0 t0 => exact ⟨h0, t0, rfl⟩
    by_cases hc : c = '\n'
    · rw [splitLines, if_pos hc, hS, joinLines_cons_cons, List.nil_append, hc, ← hS, ih]
    · rw [splitLines, if_neg hc, hS]
      cases t0 with
      | nil =>
        show c :: h0 = c :: rest
        rw [← ih, hS]
        rfl
      | cons t1 t2 =>
        rw [joinLines_cons_cons, List.cons_append, ← joinLines_cons_cons, ← hS, ih]

theorem joinLines_sub {ls1 ls2 : List (List Char)}
    (h : List.Forall₂ List.Sublist ls1 ls2) :
    List.Sublist (joinLines ls1) (joinLines ls2) := by
  induction h with
  | nil => exact List.Sublist.refl []
  | @cons a b l1 l2 hab htail ih =>
    cases htail with
    | nil => exact hab
    | @cons c d t1 t2 hcd htail2 =>
      rw [joinLines_cons_cons, joinLines_cons_cons]
      exact List.Sublist.append hab (List.Sublist.cons₂ '\n' ih)

theorem forall2_map_sub (f : List Char → List Char) (hf : ∀ x, List.Sublist (f x) x) :
    ∀ ls : List (List Char), List.Forall₂ List.Sublist (ls.map f) ls := by
  intro ls
  induction ls with
  | nil => exact List.Forall₂.nil
  | cons x t ih => exact List.Forall₂.cons (hf x) ih

theorem removeMatchedLines_sub (l : List Char) :
    List.Sublist (removeMatchedLines l) l := by
  have hf : ∀ x, List.Sublist (if lineMatches x then [] else x) x := by
    intro x
    split
    · exact List.nil_sublist x
    · exact List.Sublist.refl x
  have h := joinLines_sub (forall2_map_sub _ hf (splitLines l))
  rwa [joinLines_splitLines] at h

theorem emitNL_sub (n : Nat) : List.Sublist (emitNL n) (List.replicate n '\n') := by
  unfold emitNL
  split
  · rename_i h3
    show List.Sublist (List.replicate 2 '\n') (List.replicate n '\n')
    exact (List.replicate_sublist_replicate '\n').mpr (by omega)
  · exact List.Sublist.refl _

theorem replicate_snoc_cons (n : Nat) (cs : List Char) :
    List.replicate n '\n' ++ '\n' :: cs = List.replicate (n + 1) '\n' ++ cs := by
  rw [List.replicate_succ' n '\n', List.append_assoc]
  rfl

theorem collapseGo_sub (l : List Char) :
    ∀ n, List.Sublist (collapseGo n l) (List.replicate n '\n' ++ l) := by
  induction l with
  | nil =>
    intro n
    rw [List.append_nil]
    exact emitNL_sub n
  | cons c cs ih =>
    intro n
    by_cases hc : c = '\n'
    · subst hc
      rw [collapseGo, if_pos rfl, replicate_snoc_cons]
      exact ih (n + 1)
    · rw [collapseGo, if_neg hc]
      exact List.Sublist.append (emitNL_sub n) (List.Sublist.cons₂ c (by simpa using ih 0))

theorem pyStrip_sub (l : List Char) : List.Sublist (pyStrip l) l := by
  have h1 : List.Sublist (l.dropWhile isPySpace) l := List.dropWhile_sublist _
  have h2 : List.Sublist ((l.dropWhile isPySpace).reverse.dropWhile isPySpace)
      (l.dropWhile isPySpace).reverse := List.dropWhile_sublist _
  have h3 := List.Sublist.reverse h2
  rw [List.reverse_reverse] at h3
  exact h3.trans h1

theorem dropWhile_head?_false {p : Char → Bool} {c : Char} :
    ∀ {l : List Char}, (l.dropWhile p).head? = some c → p c = false := by
  intro l
  induction l with
  | nil => intro h; simp [List.dropWhile] at h
  | cons a t ih =>
    intro h
    cases hp : p a with
    | true =>
      rw [List.dropWhile_cons_of_pos hp] at h
      exact ih h
    | false =>
      rw [List.dropWhile_cons_of_neg (by simp [hp])] at h
      obtain rfl : a = c := by simpa using h
      exact hp

theorem getLast?_dropWhile_of_ne {p : Char → Bool} :
    ∀ {l : List Char}, l.dropWhile p ≠ [] → (l.dropWhile p).getLast? = l.getLast? := by
  intro l
  induction l with
  | nil => intro h; exact absurd rfl h
  | cons a t ih =>
    intro h
    cases hp : p a with
    | false => rw [List.dropWhile_cons_of_neg (by simp [hp])]
    | true =>
      rw [List.dropWhile_cons_of_pos hp] at h ⊢
      have ht : t ≠ [] := by
        intro h0
        rw [h0] at h
        exact h rfl
      rw [ih h]
      cases t with
      | nil => exact absurd rfl ht
      | cons b t2 => rw [List.getLast?_cons_cons]

theorem pyStrip_head_not {l : List Char} {c : Char}
    (h : (pyStrip l).head? = some c) : isPySpace c = false := by
  unfold pyStrip at h
  rw [List.head?_reverse] at h
  have hne : (l.dropWhile isPySpace).reverse.dropWhile isPySpace ≠ [] := by
    intro h0
    rw [h0] at h
    cases h
  rw [getLast?_dropWhile_of_ne hne, List.getLast?_reverse] at h
  exact dropWhile_head?_false h

theorem pyStrip_getLast_not {l : List Char} {c : Char}
    (h : (pyStrip l).getLast? = some c) : isPySpace c = false := by
  unfold pyStrip at h
  rw [List.getLast?_reverse] at h
  exact dropWhile_head?_false h

theorem sanitize_def (y : String) :
    sanitize_buyer_tip y = if y = "" then y
      else String.mk (pyStrip (collapseNewlines (removeMatchedLines y.data))) := rfl

theorem sanitize_data_of_ne {s : String} (h : s ≠ "") :
    (sanitize_buyer_tip s).data = pyStrip (collapseNewlines (removeMatchedLines s.data)) := by
  rw [sanitize_def, if_neg h]

theorem hasNNN_sanitize (s : String) : hasNNN (sanitize_buyer_tip s).data = false := by
  by_cases h : s = ""
  · subst h
    decide
  · rw [sanitize_data_of_ne h]
    exact hasNNN_pyStrip_false (collapseGo_hasNNN (removeMatchedLines s.data) 0)

theorem collapseNewlines_sub (l : List Char) : List.Sublist (collapseNewlines l) l := by
  simpa using collapseGo_sub l 0

theorem sanitize_sub (s : String) :
    List.Sublist (sanitize_buyer_tip s).data s.data := by
  by_cases h : s = ""
  · rw [h, show sanitize_buyer_tip ("") = ("") from by decide]
  · rw [sanitize_data_of_ne h]
    exact (pyStrip_sub _).trans
      ((collapseNewlines_sub _).trans (removeMatchedLines_sub _))

/-- C1: the spec requires the Line Filter to turn the input consisting
of the emoji-prefixed customer-service line followed by a greeting into
the greeting alone.  The code does not: its pattern catalog is
encoding-corrupted, so no pattern matches the real emoji or Chinese
characters and the input comes back unchanged, not equal to the
output the claim requires.  This theorem evaluates the code at the
failing input. -/
theorem c1_scenario1_code_bug :
    sanitize_buyer_tip ("☎️ 客服：12345\nHello buyer!") = ("☎️ 客服：12345\nHello buyer!") ∧
    sanitize_buyer_tip ("☎️ 客服：12345\nHello buyer!") ≠ ("Hello buyer!") := by
  constructor
  · decide
  · decide

/-- C2 counterexample: the claim asserts that a plain unprefixed
tutorial line is removed just as a support line is; at the concrete
input consisting of exactly the line Tutorial-colon-x the filter
returns the line unchanged instead of removing it. -/
theorem c2_counterexample :
    sanitize_buyer_tip ("Tutorial: x") = ("Tutorial: x") ∧
    sanitize_buyer_tip ("Tutorial: x") ≠ ("") := by
  constructor
  · decide
  · decide

/-- C2 amended: the unprefixed fallback patterns exist for the
customer-service, channel, official-channel and restock-group keywords
but not for the tutorial keyword: the four English keyword lines are
removed while a plain tutorial line (in either language) is kept. -/
theorem c2_fallback_catalog :
    sanitize_buyer_tip ("Support: foo@bar.com\nThanks for your order") = ("Thanks for your order") ∧
    sanitize_buyer_tip ("Channel: c\nok") = ("ok") ∧
    sanitize_buyer_tip ("Official Channel: c\nok") = ("ok") ∧
    sanitize_buyer_tip ("Restock Group: c\nok") = ("ok") ∧
    sanitize_buyer_tip ("Tutorial: x\nok") = ("Tutorial: x\nok") ∧
    sanitize_buyer_tip ("教程：x\nok") = ("教程：x\nok") := by
  refine ⟨by decide, by decide, by decide, by decide, by decide, by decide⟩

/-- C3 counterexample: the claim asserts that a bold-wrapped line with
no emoji prefix is removed; at the two concrete inputs the claim names,
the filter returns the input unchanged. -/
theorem c3_counterexample :
    sanitize_buyer_tip ("<b>Support: x</b>") = ("<b>Support: x</b>") ∧
    sanitize_buyer_tip ("<b>客服：x</b>") = ("<b>客服：x</b>") := by
  constructor
  · decide
  · decide

/-- C3 amended: inside the bold-wrapped patterns the emoji-set
character is mandatory, so emoji prefix and bold wrapper are not
independently optional: a bold line carrying a character of the
emoji set is removed, the same line without it is kept. -/
theorem c3_bold_requires_emoji :
    sanitize_buyer_tip ("<b>ğSupport: x</b>") = ("") ∧
    sanitize_buyer_tip ("<b>Support: x</b>") = ("<b>Support: x</b>") := by
  constructor
  · decide
  · decide

/-- C4 counterexample: the filter is not idempotent.  For the input
consisting of a support line preceded by one space, the first pass
removes nothing and the final trim exposes the support line, which the
second pass then removes, so filtering twice differs from filtering
once. -/
theorem c4_counterexample :
    sanitize_buyer_tip (sanitize_buyer_tip (" Support: x")) ≠ sanitize_buyer_tip (" Support: x") ∧
    sanitize_buyer_tip (" Support: x") = ("Support: x") ∧
    sanitize_buyer_tip (sanitize_buyer_tip (" Support: x")) = ("") := by
  refine ⟨by decide, by decide, by decide⟩

/-- C4 amended: the filter is not idempotent — the final trim, and in
the code also a match spanning a line break through a whitespace run,
can expose material for the second pass — but a second application can
only delete: for every input, filtering the filtered output yields a
subsequence of it.  This holds for any extent of the removal pass, so
it does not rest on the per-line model of the substitution. -/
theorem c4_second_pass_only_deletes (x : String) :
    List.Sublist (sanitize_buyer_tip (sanitize_buyer_tip x)).data (sanitize_buyer_tip x).data :=
  sanitize_sub (sanitize_buyer_tip x)

/-- C5: for every input the output of the filter never contains three
consecutive newline characters, and the concrete blank-line-collapse
scenario holds. -/
theorem c5_no_triple_newline :
    (∀ s, hasNNN (sanitize_buyer_tip s).data = false) ∧
    sanitize_buyer_tip ("Hello\n\n\n\nWorld") = ("Hello\n\nWorld") :=
  ⟨hasNNN_sanitize, by decide⟩

/-- C6: for every input, the first and the last character of the
filter output (when they exist) are not whitespace. -/
theorem c6_trimmed (s : String) :
    (∀ c, (sanitize_buyer_tip s).data.head? = some c → isPySpace c = false) ∧
    (∀ c, (sanitize_buyer_tip s).data.getLast? = some c → isPySpace c = false) := by
  by_cases h : s = ""
  · subst h
    have h0 : (sanitize_buyer_tip ("")).data = [] := by decide
    constructor <;> intro c hc <;> rw [h0] at hc <;> simp at hc
  · rw [sanitize_data_of_ne h]
    exact ⟨fun c hc => pyStrip_head_not hc, fun c hc => pyStrip_getLast_not hc⟩

/-- C6 witness: the trim theorem applied at a concrete input whose
output starts with the letter h. -/
theorem c6_witness :
    (sanitize_buyer_tip ("  hi  ")).data.head? = some 'h' ∧ isPySpace 'h' = false :=
  ⟨by decide, (c6_trimmed ("  hi  ")).1 'h' (by decide)⟩

/-- C7: the spec requires the builder to join the present fields, in
order, using the full-width colon; the code emits the three corrupted
characters instead of the full-width colon, so the required output of
scenario 5 is not produced.  This theorem evaluates the code at the
failing input. -/
theorem c7_scenario5_code_bug :
    build_agent_contacts_block ⟨none, some ("t.me/x"), none, some ("t.me/y")⟩ ("en") =
      ("<b>Official Channelï¼š</b>t.me/x\n<b>Tutorialï¼š</b>t.me/y") ∧
    build_agent_contacts_block ⟨none, some ("t.me/x"), none, some ("t.me/y")⟩ ("en") ≠
      ("<b>Official Channel：</b>t.me/x\n<b>Tutorial：</b>t.me/y") := by
  constructor
  · decide
  · decide

/-- C8: for every settings record, every language selector other than
zh yields exactly the output of the English label set: the builder
compares the selector with zh and falls back to English otherwise. -/
theorem c8_lang_fallback (s : AgentSettings) (lang : String) (h : lang ≠ "zh") :
    build_agent_contacts_block s lang = build_agent_contacts_block s ("en") := by
  have hen : ("en" : String) ≠ "zh" := by decide
  simp only [build_agent_contacts_block, if_neg h, if_neg hen]

/-- C8 witness: the fallback theorem applied at a concrete settings
record and the selector fr. -/
theorem c8_witness :
    (("fr" : String) ≠ "zh") ∧
    build_agent_contacts_block ⟨some ("a"), some ("b"), some ("c"), some ("d")⟩ ("fr") =
      build_agent_contacts_block ⟨some ("a"), some ("b"), some ("c"), some ("d")⟩ ("en") :=
  ⟨by decide, c8_lang_fallback ⟨some ("a"), some ("b"), some ("c"), some ("d")⟩ ("fr") (by decide)⟩

/-- C9: both functions are total by construction; the filter returns
the empty input unchanged, and the builder returns the empty string
when every field is absent and when every field is present but empty,
for every language selector. -/
theorem c9_total_empty :
    sanitize_buyer_tip ("") = ("") ∧
    (∀ lang, build_agent_contacts_block ⟨none, none, none, none⟩ lang = ("")) ∧
    (∀ lang, build_agent_contacts_block ⟨some (""), some (""), some (""), some ("")⟩ lang = ("")) := by
  refine ⟨by decide, fun lang => ?_, fun lang => ?_⟩ <;> simp [build_agent_contacts_block]

/-- C10: the filter only deletes characters: for every input the
output character sequence is a sublist (subsequence) of the input
character sequence, each pass dropping characters and never inserting
or rewriting any. -/
theorem c10_only_deletes (s : String) :
    List.Sublist (sanitize_buyer_tip s).data s.data :=
  sanitize_sub s
